import Mathlib

/-!
Verification of the RAG-Model repository's frontend behaviour against its
natural-language specification.  The definitions below are shallow embeddings
of the JavaScript/JSX source files:

* `renderAnswerWithCitations`, `citationCardView`, `citationPanelView`,
  `resultsView` — from `ResultsDisplay.jsx` and `CitationPanel.jsx`;
* `queryRAG_body`, `requestBody_v2`, `issuedRequest_v2`, `handleSubmit_v1/_v2`
  — from `api.js` and the two `SearchInterface.jsx` variants;
* `getFileType`, `uploadFile`, `handleUploadAll` — from `UploadManager.jsx`;
* `getStatusBadge` — from `Documents.jsx`.

Machine integers are modelled as `Nat`/`Int`; JavaScript strings as Lean
`String` over `List Char`; fallible operations return `Option`.
-/

namespace RAG

/-! ## Citation records

The per-citation fields consumed by the rendering layer
(`ResultsDisplay.jsx`, `CitationPanel.jsx`):
`{id, type, source, page?, start_time?, end_time?, url?}`.
Audio timestamps are rationals in the source (seconds, displayed with
`toFixed(1)`); we model the numeric value as `Int` since no claim depends
on fractional formatting. -/
structure Citation where
  id : Nat
  type : String
  source : String
  page : Option Nat
  start_time : Option Int
  end_time : Option Int
  url : Option String
deriving DecidableEq

/-- The lookup `citations.find(c => c.id === citationNum)` from `ResultsDisplay.jsx`. -/
def resolveCitation (citations : List Citation) (n : Nat) : Option Citation :=
  citations.find? (fun c => c.id == n)

/-- One element of the `parts` array built by `renderAnswerWithCitations`:
either a plain-text `<span>` or a citation `<button>` labelled `[n]`
carrying the resolved citation (`undefined`, i.e. `none`, when the lookup
failed). -/
inductive Segment where
  | span (s : String)
  | citeButton (n : Nat) (resolved : Option Citation)
deriving DecidableEq

/-- The value `parseInt` yields on the all-digit capture group of the citation regex. -/
def jsParseIntDigits (ds : List Char) : Nat :=
  ds.foldl (fun a c => 10 * a + (c.toNat - 48)) 0

/-- Attempt to match the regex `\[(\d+)\]` at the head of the character
list: an opening bracket, a nonempty run of decimal digits, a closing
bracket.  Returns the digit run and the characters after the closing
bracket.  (Greedy `\d+` followed by the mandatory `]` matches exactly the
maximal digit run, since `]` is not a digit.) -/
def markerHead : List Char → Option (List Char × List Char)
  | [] => none
  | c :: rest =>
    if c = '[' ∧ ¬(rest.takeWhile (fun ch => ch.isDigit)).isEmpty
        ∧ (rest.drop (rest.takeWhile (fun ch => ch.isDigit)).length).head? = some ']' then
      some (rest.takeWhile (fun ch => ch.isDigit),
            (rest.drop (rest.takeWhile (fun ch => ch.isDigit)).length).tail)
    else none

/-- The `span` pushed for the text accumulated since the last match
(`text.substring(lastIndex, match.index)`); the source pushes it only when
nonempty.  `acc` holds the pending characters in reverse. -/
def flushSpan (acc : List Char) : List Segment :=
  if acc.isEmpty then [] else [Segment.span (String.mk acc.reverse)]

/-- The `while ((match = citationRegex.exec(text)) !== null)` loop of
`renderAnswerWithCitations`: repeatedly find the leftmost `[n]` marker,
emit the preceding text as a span and the marker as a citation button,
and continue after the closing bracket.  `fuel` bounds the recursion and
is sufficient whenever `fuel ≥ l.length`. -/
def scanAux (citations : List Citation) : Nat → List Char → List Char → List Segment
  | _, acc, [] => flushSpan acc
  | 0, acc, l => flushSpan (l.reverse ++ acc)
  | fuel + 1, acc, c :: cs =>
    match markerHead (c :: cs) with
    | some (ds, after) =>
      flushSpan acc
        ++ Segment.citeButton (jsParseIntDigits ds)
             (resolveCitation citations (jsParseIntDigits ds))
           :: scanAux citations fuel [] after
    | none => scanAux citations fuel (c :: acc) cs

/-- The function `renderAnswerWithCitations(text)` from `ResultsDisplay.jsx`, as the
list of parts it returns. -/
def renderAnswerWithCitations (citations : List Citation) (text : String) : List Segment :=
  scanAux citations text.data.length [] text.data

/-- The citation numbers of the emitted citation buttons, in output order. -/
def citeNums : List Segment → List Nat
  | [] => []
  | Segment.span _ :: rest => citeNums rest
  | Segment.citeButton n _ :: rest => n :: citeNums rest

/-- The digit runs of all citation markers occurring in the text, listed in
order of their starting position (the scan advances one position at a time,
so every position is inspected). -/
def markersOf : List Char → List (List Char)
  | [] => []
  | c :: cs =>
    match markerHead (c :: cs) with
    | some (ds, _) => ds :: markersOf cs
    | none => markersOf cs

/-- The marker, if any, beginning at position `i` of the text. -/
def markerAt (l : List Char) (i : Nat) : Option (List Char) :=
  (markerHead (l.drop i)).map Prod.fst

/-- Declarative reading of the spec sentence: the substring of the fixed
textual form `[n]` (a nonempty run of decimal digits between brackets)
begins at position `i` of the text. -/
def hasMarkerAt (l : List Char) (i : Nat) (ds : List Char) : Prop :=
  ds ≠ [] ∧ (∀ c ∈ ds, c.isDigit = true) ∧
    (l.drop i).take (ds.length + 2) = '[' :: (ds ++ [']'])

/-! ## Structural lemmas about the marker scanner -/

lemma takeWhile_digits (ds after : List Char) (hdig : ∀ c ∈ ds, c.isDigit = true) :
    (ds ++ ']' :: after).takeWhile (fun c => c.isDigit) = ds := by
  induction ds with
  | nil =>
    have h : (']' : Char).isDigit = false := by decide
    simp [List.takeWhile_cons, h]
  | cons d ds ih =>
    have hd : d.isDigit = true := hdig d (List.mem_cons_self d ds)
    have ih' := ih (fun c hc => hdig c (List.mem_cons_of_mem d hc))
    simp [List.takeWhile_cons, hd, ih']

lemma drop_takeWhile_length (p : Char → Bool) (rest : List Char) :
    rest.drop (rest.takeWhile p).length = rest.dropWhile p := by
  induction rest with
  | nil => rfl
  | cons a l ih =>
    by_cases h : p a <;>
      simp [List.takeWhile_cons, List.dropWhile_cons, h, ih]

lemma markerHead_eq_some {l ds after : List Char}
    (h : markerHead l = some (ds, after)) :
    l = '[' :: ds ++ ']' :: after ∧ ds ≠ [] ∧ ∀ c ∈ ds, c.isDigit = true := by
  cases l with
  | nil => simp [markerHead] at h
  | cons c rest =>
    simp only [markerHead] at h
    split_ifs at h with hcond
    · obtain ⟨hc, hne, hhd⟩ := hcond
      rw [Option.some.injEq, Prod.mk.injEq] at h
      obtain ⟨hds, hafter⟩ := h
      rw [drop_takeWhile_length] at hhd hafter
      have hdw : rest.dropWhile (fun ch => ch.isDigit) = ']' :: after := by
        cases hdwc : rest.dropWhile (fun ch => ch.isDigit) with
        | nil => rw [hdwc] at hhd; simp at hhd
        | cons x t =>
          rw [hdwc] at hhd hafter
          simp only [List.head?_cons, Option.some.injEq] at hhd
          simp only [List.tail_cons] at hafter
          rw [hhd, hafter]
      have hrest : rest = ds ++ ']' :: after := by
        conv_lhs => rw [← List.takeWhile_append_dropWhile (p := fun ch => ch.isDigit) (l := rest)]
        rw [hdw, hds]
      refine ⟨by rw [hrest, hc]; rfl, ?_, ?_⟩
      · rw [← hds]; simpa [List.isEmpty_iff] using hne
      · intro x hx
        rw [← hds] at hx
        exact List.mem_takeWhile_imp hx

lemma markerHead_eq_some_of (ds after : List Char) (hne : ds ≠ [])
    (hdig : ∀ c ∈ ds, c.isDigit = true) :
    markerHead ('[' :: ds ++ ']' :: after) = some (ds, after) := by
  have hl : ('[' : Char) :: ds ++ ']' :: after = '[' :: (ds ++ ']' :: after) := rfl
  rw [hl]
  simp [markerHead, takeWhile_digits ds after hdig, List.isEmpty_iff, hne]

lemma markerHead_cons_of_ne {c : Char} (l : List Char) (h : c ≠ '[') :
    markerHead (c :: l) = none := by
  simp [markerHead, h]

lemma markersOf_cons_some {c : Char} {cs ds after : List Char}
    (h : markerHead (c :: cs) = some (ds, after)) :
    markersOf (c :: cs) = ds :: markersOf cs := by
  simp [markersOf, h]

lemma markersOf_cons_none {c : Char} {cs : List Char}
    (h : markerHead (c :: cs) = none) :
    markersOf (c :: cs) = markersOf cs := by
  simp [markersOf, h]

lemma markersOf_digits_append (ds after : List Char)
    (hdig : ∀ c ∈ ds, c.isDigit = true) :
    markersOf (ds ++ ']' :: after) = markersOf after := by
  induction ds with
  | nil =>
    simpa using markersOf_cons_none (markerHead_cons_of_ne after (by decide))
  | cons d ds ih =>
    have hd : d ≠ '[' := by
      intro he
      have := hdig d (List.mem_cons_self d ds)
      rw [he] at this
      exact absurd this (by decide)
    rw [List.cons_append, markersOf_cons_none (markerHead_cons_of_ne _ hd)]
    exact ih (fun c hc => hdig c (List.mem_cons_of_mem d hc))

lemma citeNums_append (xs ys : List Segment) :
    citeNums (xs ++ ys) = citeNums xs ++ citeNums ys := by
  induction xs with
  | nil => rfl
  | cons s xs ih => cases s <;> simp [citeNums, ih]

lemma citeNums_flushSpan (acc : List Char) : citeNums (flushSpan acc) = [] := by
  unfold flushSpan
  split <;> rfl

lemma citeNums_scanAux (citations : List Citation) :
    ∀ (fuel : Nat) (acc l : List Char), l.length ≤ fuel →
      citeNums (scanAux citations fuel acc l) = (markersOf l).map jsParseIntDigits := by
  intro fuel
  induction fuel with
  | zero =>
    intro acc l hl
    have hnil : l = [] := List.length_eq_zero.mp (Nat.le_zero.mp hl)
    subst hnil
    simp [scanAux, citeNums_flushSpan, markersOf]
  | succ fuel ih =>
    intro acc l hl
    cases l with
    | nil => simp [scanAux, citeNums_flushSpan, markersOf]
    | cons c cs =>
      cases hm : markerHead (c :: cs) with
      | some p =>
        obtain ⟨ds, after⟩ := p
        obtain ⟨hstruct, hne, hdig⟩ := markerHead_eq_some hm
        have hcs : cs = ds ++ ']' :: after := (List.cons.inj hstruct).2
        have hlen : after.length ≤ fuel := by
          have := congrArg List.length hcs
          simp at this
          simp at hl
          omega
        simp only [scanAux]
        rw [hm]
        rw [citeNums_append, citeNums_flushSpan]
        simp only [citeNums]
        rw [ih [] after hlen, markersOf_cons_some hm, hcs,
          markersOf_digits_append ds after hdig]
        rfl
      | none =>
        simp only [scanAux]
        rw [hm]
        rw [ih (c :: acc) cs (by simp at hl; omega), markersOf_cons_none hm]

lemma markerAt_zero (l : List Char) :
    markerAt l 0 = (markerHead l).map Prod.fst := by
  simp [markerAt]

lemma markerAt_succ (c : Char) (cs : List Char) (i : Nat) :
    markerAt (c :: cs) (i + 1) = markerAt cs i := by
  simp [markerAt]

lemma markersOf_eq_filterMap (l : List Char) :
    markersOf l = (List.range l.length).filterMap (markerAt l) := by
  induction l with
  | nil => rfl
  | cons c cs ih =>
    rw [List.length_cons, List.range_succ_eq_map, List.filterMap_cons]
    have h2 : ((List.range cs.length).map Nat.succ).filterMap (markerAt (c :: cs))
        = (List.range cs.length).filterMap (markerAt cs) := by
      rw [List.filterMap_map]
      have hcomp : markerAt (c :: cs) ∘ Nat.succ = markerAt cs :=
        funext (markerAt_succ c cs)
      rw [hcomp]
    cases hm : markerHead (c :: cs) with
    | some p =>
      obtain ⟨ds, after⟩ := p
      have h0 : markerAt (c :: cs) 0 = some ds := by rw [markerAt_zero, hm]; rfl
      rw [h0, markersOf_cons_some hm, h2, ih]
    | none =>
      have h0 : markerAt (c :: cs) 0 = none := by rw [markerAt_zero, hm]; rfl
      rw [h0, markersOf_cons_none hm, h2, ih]

lemma markerAt_iff_hasMarkerAt (l : List Char) (i : Nat) (ds : List Char) :
    markerAt l i = some ds ↔ hasMarkerAt l i ds := by
  constructor
  · intro h
    simp only [markerAt, Option.map_eq_some'] at h
    obtain ⟨⟨ds', after⟩, hm, hfst⟩ := h
    simp only at hfst
    subst hfst
    obtain ⟨hstruct, hne, hdig⟩ := markerHead_eq_some hm
    refine ⟨hne, hdig, ?_⟩
    rw [hstruct]
    have hsplit : ('[' : Char) :: ds' ++ ']' :: after = ('[' :: ds' ++ [']']) ++ after := by
      simp
    have hlen : ('[' :: ds' ++ [']']).length = ds'.length + 2 := by simp
    rw [hsplit, ← hlen, List.take_left]
    simp
  · rintro ⟨hne, hdig, htake⟩
    have hdecomp : l.drop i = ('[' :: ds ++ [']']) ++ (l.drop i).drop (ds.length + 2) := by
      conv_lhs => rw [← List.take_append_drop (ds.length + 2) (l.drop i)]
      rw [htake]
      simp
    have hsplit : ('[' :: ds ++ [']']) ++ (l.drop i).drop (ds.length + 2)
        = '[' :: ds ++ ']' :: (l.drop i).drop (ds.length + 2) := by simp
    simp only [markerAt]
    rw [hdecomp, hsplit, markerHead_eq_some_of ds _ hne hdig]
    rfl

lemma not_citeButton_mem_flushSpan {acc : List Char} {n : Nat} {r : Option Citation}
    (h : Segment.citeButton n r ∈ flushSpan acc) : False := by
  unfold flushSpan at h
  split at h <;> simp at h

lemma resolved_of_mem_scanAux (citations : List Citation) :
    ∀ (fuel : Nat) (acc l : List Char) (n : Nat) (r : Option Citation),
      Segment.citeButton n r ∈ scanAux citations fuel acc l →
      r = resolveCitation citations n := by
  intro fuel
  induction fuel with
  | zero =>
    intro acc l n r h
    cases l with
    | nil => exact absurd h (fun h => not_citeButton_mem_flushSpan h)
    | cons c cs =>
      simp only [scanAux] at h
      exact absurd h (fun h => not_citeButton_mem_flushSpan h)
  | succ fuel ih =>
    intro acc l n r h
    cases l with
    | nil => exact absurd h (fun h => not_citeButton_mem_flushSpan h)
    | cons c cs =>
      simp only [scanAux] at h
      cases hm : markerHead (c :: cs) with
      | some p =>
        obtain ⟨ds, after⟩ := p
        rw [hm] at h
        rw [List.mem_append] at h
        rcases h with h | h
        · exact absurd h (fun h => not_citeButton_mem_flushSpan h)
        · rw [List.mem_cons] at h
          rcases h with h | h
          · obtain ⟨hn, hr⟩ := Segment.citeButton.inj h
            rw [hr, hn]
          · exact ih [] after n r h
      | none =>
        rw [hm] at h
        exact ih (c :: acc) cs n r h

lemma exists_citeButton_of_mem_citeNums {out : List Segment} {n : Nat}
    (h : n ∈ citeNums out) :
    ∃ r, Segment.citeButton n r ∈ out := by
  induction out with
  | nil => simp [citeNums] at h
  | cons s rest ih =>
    cases s with
    | span str =>
      obtain ⟨r, hr⟩ := ih (by simpa [citeNums] using h)
      exact ⟨r, List.mem_cons_of_mem _ hr⟩
    | citeButton m r' =>
      simp only [citeNums, List.mem_cons] at h
      rcases h with h | h
      · exact ⟨r', by rw [h]; exact List.mem_cons_self _ _⟩
      · obtain ⟨r, hr⟩ := ih h
        exact ⟨r, List.mem_cons_of_mem _ hr⟩

lemma mem_markersOf_of_markerAt {l : List Char} {i : Nat} {ds : List Char}
    (h : markerAt l i = some ds) : ds ∈ markersOf l := by
  have hlt : i < l.length := by
    by_contra hge
    have : l.drop i = [] := List.drop_eq_nil_iff.mpr (by omega)
    rw [markerAt, this] at h
    simp [markerHead] at h
  rw [markersOf_eq_filterMap]
  exact List.mem_filterMap.mpr ⟨i, List.mem_range.mpr hlt, h⟩

/-! ## The concatenation of rendered segments (for the round-trip claim) -/

/-- The characters a segment contributes to the rendered answer paragraph:
a span contributes its text, a citation button contributes its label
`[{citationNum}]` (the citation number re-rendered in decimal). -/
def segmentChars : Segment → List Char
  | Segment.span s => s.data
  | Segment.citeButton n _ => '[' :: ((Nat.repr n).data ++ [']'])

lemma flatten_flushSpan (acc : List Char) :
    ((flushSpan acc).map segmentChars).flatten = acc.reverse := by
  unfold flushSpan
  split
  · next h => simp [List.isEmpty_iff.mp h]
  · simp [segmentChars]

lemma flatten_scanAux (citations : List Citation) :
    ∀ (fuel : Nat) (acc l : List Char),
      (∀ ds ∈ markersOf l, (Nat.repr (jsParseIntDigits ds)).data = ds) →
      ((scanAux citations fuel acc l).map segmentChars).flatten = acc.reverse ++ l := by
  intro fuel
  induction fuel with
  | zero =>
    intro acc l hrep
    cases l with
    | nil => simp [scanAux, flatten_flushSpan]
    | cons c cs =>
      simp only [scanAux]
      rw [flatten_flushSpan]
      simp
  | succ fuel ih =>
    intro acc l hrep
    cases l with
    | nil => simp [scanAux, flatten_flushSpan]
    | cons c cs =>
      simp only [scanAux]
      cases hm : markerHead (c :: cs) with
      | some p =>
        obtain ⟨ds, after⟩ := p
        obtain ⟨hstruct, hne, hdig⟩ := markerHead_eq_some hm
        have hc : c = '[' := (List.cons.inj hstruct).1
        have hcs : cs = ds ++ ']' :: after := (List.cons.inj hstruct).2
        have hds : ds ∈ markersOf (c :: cs) := by
          rw [markersOf_cons_some hm]
          exact List.mem_cons_self _ _
        have hrep' : ∀ ds' ∈ markersOf after, (Nat.repr (jsParseIntDigits ds')).data = ds' := by
          intro ds' hds'
          apply hrep
          rw [markersOf_cons_some hm, hcs, markersOf_digits_append ds after hdig]
          exact List.mem_cons_of_mem _ hds'
        dsimp only
        rw [List.map_append, List.flatten_append, flatten_flushSpan]
        simp only [List.map_cons, List.flatten_cons, segmentChars]
        rw [hrep ds hds, ih [] after hrep']
        rw [hc, hcs]
        simp
      | none =>
        dsimp only
        rw [ih (c :: acc) cs (by
          intro ds' hds'
          exact hrep ds' (by rwa [markersOf_cons_none hm]))]
        simp

/-! ## Rendering of citation records (`ResultsDisplay.jsx` sources grid and
`CitationPanel.jsx`) -/

/-- JavaScript truthiness of an optional number (`undefined` and `0` are
falsy). -/
def jsTruthyNat : Option Nat → Bool
  | some p => p != 0
  | none => false

/-- JavaScript truthiness of an optional string (`undefined` and `""` are
falsy). -/
def jsTruthyStr : Option String → Bool
  | some s => !s.isEmpty
  | none => false

/-- What one citation card in the sources grid displays
(`ResultsDisplay.jsx`, the `citations.map` block): the `[id]` number, the
modality badge, the source filename, `Page {page}` only when `page` is
truthy, and the `{start_time}s - {end_time}s` line only when `start_time`
is not `undefined`. -/
structure CitationCardView where
  number : Nat
  typeTag : String
  source : String
  pageLine : Option Nat
  timeLine : Option (Int × Option Int)
deriving DecidableEq

def citationCardView (c : Citation) : CitationCardView :=
  { number := c.id
    typeTag := c.type
    source := c.source
    pageLine := if jsTruthyNat c.page then c.page else none
    timeLine :=
      match c.start_time with
      | some s => some (s, c.end_time)
      | none => none }

/-- The type label shown by `CitationPanel.jsx` (one conditional per
modality; anything else renders nothing). -/
def typeLabelOf (t : String) : String :=
  if t = "text" then "📄 Document"
  else if t = "image" then "🖼️ Image"
  else if t = "audio" then "🎵 Audio"
  else ""

/-- What the citation detail panel displays (`CitationPanel.jsx`): header
`[id]`, type label, source, `Page {page}` only when truthy, timestamp only
when `start_time !== undefined`, and the image preview only when `url` is
truthy and the type is `image`. -/
structure CitationPanelView where
  headerId : Nat
  typeLabel : String
  source : String
  pageDetail : Option Nat
  timestampDetail : Option (Int × Option Int)
  imagePreview : Option String
deriving DecidableEq

def citationPanelView (c : Citation) : CitationPanelView :=
  { headerId := c.id
    typeLabel := typeLabelOf c.type
    source := c.source
    pageDetail := if jsTruthyNat c.page then c.page else none
    timestampDetail :=
      match c.start_time with
      | some s => some (s, c.end_time)
      | none => none
    imagePreview :=
      if jsTruthyStr c.url && (c.type == "image") then c.url else none }

/-- The sources grid (`ResultsDisplay.jsx`): rendered only when
`citations && citations.length > 0`, one card per element of the
`citations` array. -/
def sourceCards (citations : List Citation) : List CitationCardView :=
  if citations.isEmpty then [] else citations.map citationCardView

/-- The `context_used` field of the query response as destructured by
`ResultsDisplay.jsx`. -/
structure ContextUsed where
  text_chunks : Nat
  images : Nat
  audio_segments : Nat
deriving DecidableEq

/-- The context badges of the answer header: one badge per modality with a
strictly positive count. -/
def contextBadges (cu : ContextUsed) : List String :=
  (if cu.text_chunks > 0 then [toString cu.text_chunks ++ " docs"] else [])
    ++ (if cu.images > 0 then [toString cu.images ++ " images"] else [])
    ++ (if cu.audio_segments > 0 then [toString cu.audio_segments ++ " audio"] else [])

/-- The query response as destructured by `ResultsDisplay.jsx`:
`const { answer, citations, context_used } = results`. -/
structure QueryResults where
  answer : String
  citations : List Citation
  context_used : ContextUsed

/-- Everything `ResultsDisplay` renders from a query response. -/
structure ResultsView where
  badges : List String
  answerSegments : List Segment
  sources : List CitationCardView
deriving DecidableEq

def resultsView (r : QueryResults) : ResultsView :=
  { badges := contextBadges r.context_used
    answerSegments := renderAnswerWithCitations r.citations r.answer
    sources := sourceCards r.citations }

lemma length_sourceCards (citations : List Citation) :
    (sourceCards citations).length = citations.length := by
  unfold sourceCards
  split
  · next h => rw [List.isEmpty_iff.mp h]; rfl
  · rw [List.length_map]

/-! ## The query request (`api.js` and the two `SearchInterface.jsx`
variants) -/

/-- JSON values carried in request bodies. -/
inductive JsonVal where
  | str (s : String)
  | num (n : Nat)
  | arr (xs : List JsonVal)
  | obj (fields : List (String × JsonVal))

/-- The body `queryRAG` posts to `/query/` (`api.js` lines 76–82):
`{question, top_k, include_modalities}`.  The `question` parameter is
whatever value the caller passes in the first argument position; `topK`
and `includeModalities` default to `5` and all three modalities when the
caller omits them. -/
def queryRAG_body (question : JsonVal) (topK : Nat)
    (includeModalities : List String) : JsonVal :=
  JsonVal.obj
    [("question", question),
     ("top_k", JsonVal.num topK),
     ("include_modalities", JsonVal.arr (includeModalities.map JsonVal.str))]

def defaultModalities : List String := ["text", "image", "audio"]

/-- The list `Object.keys(modalities).filter(m => modalities[m])` of the first
`SearchInterface` variant (insertion order `text, image, audio`). -/
def selectedModalities (text image audio : Bool) : List String :=
  (if text then ["text"] else [])
    ++ (if image then ["image"] else [])
    ++ (if audio then ["audio"] else [])

/-- The request issued by the first `SearchInterface` variant:
`queryRAG(query, 5, selectedModalities)`. -/
def issuedRequest_v1 (query : String) (mt mi ma : Bool) : JsonVal :=
  queryRAG_body (JsonVal.str query) 5 (selectedModalities mt mi ma)

/-- The `requestBody` object built by the second `SearchInterface` variant
(the one with document and advanced filters): `{question, top_k: 5}` plus
`document_ids` when documents are selected and `filters` when advanced
filters are set. -/
def requestBody_v2 (query : String) (selectedDocuments : List String)
    (advancedFilters : Option JsonVal) : JsonVal :=
  JsonVal.obj
    ([("question", JsonVal.str query), ("top_k", JsonVal.num 5)]
      ++ (if selectedDocuments.isEmpty then []
          else [("document_ids", JsonVal.arr (selectedDocuments.map JsonVal.str))])
      ++ (match advancedFilters with
          | some f => [("filters", f)]
          | none => []))

/-- The request the second variant actually issues: it calls
`queryRAG(requestBody)`, so the whole `requestBody` object lands in the
`question` parameter and `top_k`/`include_modalities` take their
defaults. -/
def issuedRequest_v2 (query : String) (selectedDocuments : List String)
    (advancedFilters : Option JsonVal) : JsonVal :=
  queryRAG_body (requestBody_v2 query selectedDocuments advancedFilters) 5
    defaultModalities

/-- The field names of a JSON object. -/
def objKeys : JsonVal → List String
  | JsonVal.obj fs => fs.map Prod.fst
  | _ => []

/-- Field lookup in a JSON object. -/
def objField (v : JsonVal) (k : String) : Option JsonVal :=
  match v with
  | JsonVal.obj fs => (fs.find? (fun p => p.1 == k)).map Prod.snd
  | _ => none

/-- The whitespace characters stripped by JavaScript's `String.trim`
(ASCII portion). -/
def isJsWhitespace (c : Char) : Bool :=
  c = ' ' ∨ c = '\t' ∨ c = '\n' ∨ c = '\r' ∨ c = '\x0b' ∨ c = '\x0c'

/-- JavaScript `query.trim()`. -/
def jsTrim (s : String) : String :=
  String.mk (((s.data.dropWhile isJsWhitespace).reverse.dropWhile isJsWhitespace).reverse)

/-- The `handleSubmit` of the first `SearchInterface` variant: guard
`if (!query.trim()) return;`, then issue the query and hand
`response.data` to `onResults`; on error the displayed results are left
as they were.  Returns the list of issued requests and the displayed
results afterwards. -/
def handleSubmit_v1 (query : String) (mt mi ma : Bool)
    (net : JsonVal → Option JsonVal) (results : Option JsonVal) :
    List JsonVal × Option JsonVal :=
  if (jsTrim query).isEmpty then ([], results)
  else
    let req := issuedRequest_v1 query mt mi ma
    match net req with
    | some data => ([req], some data)
    | none => ([req], results)

/-- The `handleSubmit` of the second `SearchInterface` variant (same guard,
request built from `requestBody_v2`). -/
def handleSubmit_v2 (query : String) (selectedDocuments : List String)
    (advancedFilters : Option JsonVal) (net : JsonVal → Option JsonVal)
    (results : Option JsonVal) : List JsonVal × Option JsonVal :=
  if (jsTrim query).isEmpty then ([], results)
  else
    let req := issuedRequest_v2 query selectedDocuments advancedFilters
    match net req with
    | some data => ([req], some data)
    | none => ([req], results)

/-! ## Upload manager (`UploadManager.jsx`) -/

inductive UpStatus where
  | pending
  | uploading
  | completed
  | error
deriving DecidableEq

/-- One entry of the `files` state: `handleFiles` stores the name and the
type computed by `getFileType`, with status `pending`. -/
structure FileEntry where
  id : Nat
  name : String
  ftype : String
  status : UpStatus
deriving DecidableEq

/-- JavaScript `name.split('.')`: the (always nonempty) list of maximal
segments between dots. -/
def splitOnDot : List Char → List (List Char)
  | [] => [[]]
  | c :: cs =>
    if c = '.' then [] :: splitOnDot cs
    else
      match splitOnDot cs with
      | t :: ts => (c :: t) :: ts
      | [] => [[c]]

/-- ASCII case folding, as `toLowerCase` acts on extension characters. -/
def toLowerChar (c : Char) : Char :=
  if 'A' ≤ c ∧ c ≤ 'Z' then Char.ofNat (c.toNat + 32) else c

/-- The extension `file.name.split('.').pop().toLowerCase()`. -/
def splitPopLower (name : String) : String :=
  String.mk (((splitOnDot name.data).getLastD []).map toLowerChar)

/-- The function `getFileType` from `UploadManager.jsx`. -/
def getFileType (name : String) : String :=
  let ext := splitPopLower name
  if ext = "pdf" ∨ ext = "docx" ∨ ext = "doc" then "document"
  else if ext = "png" ∨ ext = "jpg" ∨ ext = "jpeg" ∨ ext = "gif" ∨ ext = "bmp" then "image"
  else if ext = "mp3" ∨ ext = "wav" ∨ ext = "m4a" ∨ ext = "flac" ∨ ext = "ogg" then "audio"
  else "unknown"

/-- The upload endpoint chosen for a file type (`uploadDocument`,
`uploadImage`, `uploadAudio` from `api.js`); `none` models the
`throw new Error('Unsupported file type')` branch. -/
def uploadEndpointFor (t : String) : Option String :=
  if t = "document" then some "/upload/document"
  else if t = "image" then some "/upload/image"
  else if t = "audio" then some "/upload/audio"
  else none

/-- The exception caught by `uploadFile`'s `catch`. -/
inductive UploadErr where
  | unsupportedFileType
  | requestFailed
deriving DecidableEq

/-- The update `setFiles(prev => prev.map(f => f.id === id ? {...f, status} : f))`. -/
def setStatus (fs : List FileEntry) (i : Nat) (st : UpStatus) : List FileEntry :=
  fs.map (fun f => if f.id = i then { f with status := st } else f)

/-- The function `uploadFile(fileObj)`: mark the file `uploading`, pick the upload
function by type (throwing for an unsupported type before any request),
issue the request, and mark the file `completed` on success or `error` on
any caught exception.  `ok` is the outcome of the network request for a
given file id.  Returns the new `files` state, the endpoints that received
a request, and the caught exception, if any. -/
def uploadFile (ok : Nat → Bool) (fs : List FileEntry) (f : FileEntry) :
    List FileEntry × List String × Option UploadErr :=
  let fs1 := setStatus fs f.id UpStatus.uploading
  match uploadEndpointFor f.ftype with
  | some ep =>
    if ok f.id then (setStatus fs1 f.id UpStatus.completed, [ep], none)
    else (setStatus fs1 f.id UpStatus.error, [ep], some UploadErr.requestFailed)
  | none => (setStatus fs1 f.id UpStatus.error, [], some UploadErr.unsupportedFileType)

/-- The function `handleUploadAll`: iterate over the files that were `pending` at the
start, awaiting each upload in turn (a failed upload only marks its own
file; the loop continues).  Returns the final `files` state and all
issued requests. -/
def handleUploadAll (ok : Nat → Bool) (fs : List FileEntry) :
    List FileEntry × List String :=
  (fs.filter (fun f => f.status == UpStatus.pending)).foldl
    (fun acc f =>
      let r := uploadFile ok acc.1 f
      (r.1, acc.2 ++ r.2.1))
    (fs, [])

/-- What the file row shows in its actions column, by status
(`UploadManager.jsx` lines 168–191). -/
inductive FileIndicator where
  | doneBadge
  | errorBadge
  | progressBar
  | removeButton
deriving DecidableEq

def fileIndicator : UpStatus → FileIndicator
  | UpStatus.completed => FileIndicator.doneBadge
  | UpStatus.error => FileIndicator.errorBadge
  | UpStatus.uploading => FileIndicator.progressBar
  | UpStatus.pending => FileIndicator.removeButton

/-- The per-file net effect of one `uploadFile` call: `completed` when
the endpoint exists and the request succeeds, `error` otherwise. -/
def outcomeStatus (ok : Nat → Bool) (f : FileEntry) : UpStatus :=
  match uploadEndpointFor f.ftype with
  | some _ => if ok f.id then UpStatus.completed else UpStatus.error
  | none => UpStatus.error

/-- The expected final entry for a file after `handleUploadAll`: a file
that was `pending` ends at its own outcome status, any other file is
untouched. -/
def expectedFinal (ok : Nat → Bool) (f : FileEntry) : FileEntry :=
  if f.status = UpStatus.pending then { f with status := outcomeStatus ok f } else f

/-! ## Documents page status badges (`Documents.jsx`) -/

structure StatusBadge where
  cls : String
  label : String
deriving DecidableEq

/-- The function `getStatusBadge` from `Documents.jsx`: a `switch` on the numeric
`doc.processed` field with cases `0..3` and a `default` that renders
nothing. -/
def getStatusBadge (status : Int) : Option StatusBadge :=
  if status = 0 then some ⟨"badge-warning", "Pending"⟩
  else if status = 1 then some ⟨"badge-info", "Processing"⟩
  else if status = 2 then some ⟨"badge-success", "Completed"⟩
  else if status = 3 then some ⟨"badge-error", "Failed"⟩
  else none

/-- Modelled from the spec: the backend Document model is not under
`src/`; per §3 a Document's processing status takes one of exactly the
four values `pending|processing|completed|failed`, which the documents
page consumes through the numeric `doc.processed` encoding `0..3`. -/
inductive ProcessingStatus where
  | pending
  | processing
  | completed
  | failed
deriving DecidableEq

/-- The numeric encoding under which `Documents.jsx` consumes the
processing status. -/
def statusCode : ProcessingStatus → Int
  | ProcessingStatus.pending => 0
  | ProcessingStatus.processing => 1
  | ProcessingStatus.completed => 2
  | ProcessingStatus.failed => 3

/-! ## Lemmas about the upload batch -/

lemma setStatus_setStatus (fs : List FileEntry) (i : Nat) (s1 s2 : UpStatus) :
    setStatus (setStatus fs i s1) i s2 = setStatus fs i s2 := by
  unfold setStatus
  rw [List.map_map]
  apply List.map_congr_left
  intro f _
  by_cases h : f.id = i <;> simp [h]

lemma uploadFile_state (ok : Nat → Bool) (fs : List FileEntry) (f : FileEntry) :
    (uploadFile ok fs f).1 = setStatus fs f.id (outcomeStatus ok f) := by
  unfold uploadFile outcomeStatus
  cases hep : uploadEndpointFor f.ftype with
  | some ep => by_cases hok : ok f.id <;> simp [hok, setStatus_setStatus]
  | none => simp [setStatus_setStatus]

lemma find?_unique {α : Type} (p : α → Bool) (l : List α) (a : α)
    (ha : a ∈ l) (hpa : p a = true) (huniq : ∀ b ∈ l, p b = true → b = a) :
    l.find? p = some a := by
  induction l with
  | nil => simp at ha
  | cons x xs ih =>
    by_cases hx : p x = true
    · rw [List.find?_cons_of_pos _ hx, huniq x (List.mem_cons_self x xs) hx]
    · rw [List.find?_cons_of_neg _ (by simpa using hx)]
      rcases List.mem_cons.mp ha with rfl | ha'
      · exact absurd hpa hx
      · exact ih ha' (fun b hb hpb => huniq b (List.mem_cons_of_mem x hb) hpb)

lemma nodup_ids_inj {fs : List FileEntry}
    (h : (fs.map (fun f => f.id)).Nodup) :
    ∀ f ∈ fs, ∀ g ∈ fs, f.id = g.id → f = g := by
  induction fs with
  | nil => simp
  | cons x xs ih =>
    simp only [List.map_cons, List.nodup_cons] at h
    obtain ⟨hx, hxs⟩ := h
    intro f hf g hg hfg
    rcases List.mem_cons.mp hf with rfl | hf' <;>
      rcases List.mem_cons.mp hg with rfl | hg'
    · rfl
    · exact absurd (List.mem_map.mpr ⟨g, hg', hfg.symm⟩) hx
    · exact absurd (List.mem_map.mpr ⟨f, hf', hfg⟩) hx
    · exact ih hxs f hf' g hg' hfg

lemma fold_upload_state (ok : Nat → Bool) :
    ∀ (p : List FileEntry) (st : List FileEntry) (reqs : List String),
      (p.foldl (fun acc f =>
          let r := uploadFile ok acc.1 f
          (r.1, acc.2 ++ r.2.1)) (st, reqs)).1
        = p.foldl (fun s f => setStatus s f.id (outcomeStatus ok f)) st := by
  intro p
  induction p with
  | nil => intro st reqs; rfl
  | cons f p ih =>
    intro st reqs
    simp only [List.foldl_cons]
    rw [ih, uploadFile_state]

lemma fold_setStatus (ok : Nat → Bool) :
    ∀ (p st : List FileEntry), (p.map (fun f => f.id)).Nodup →
      p.foldl (fun s f => setStatus s f.id (outcomeStatus ok f)) st
        = st.map (fun g =>
            match p.find? (fun f => f.id == g.id) with
            | some f => { g with status := outcomeStatus ok f }
            | none => g) := by
  intro p
  induction p with
  | nil =>
    intro st _
    simp
  | cons f p ih =>
    intro st hnd
    simp only [List.map_cons, List.nodup_cons] at hnd
    obtain ⟨hf, hp⟩ := hnd
    simp only [List.foldl_cons]
    rw [ih (setStatus st f.id (outcomeStatus ok f)) hp]
    unfold setStatus
    rw [List.map_map]
    apply List.map_congr_left
    intro g _
    by_cases hg : g.id = f.id
    · have hupd : (if g.id = f.id then { g with status := outcomeStatus ok f } else g)
          = { g with status := outcomeStatus ok f } := by rw [if_pos hg]
      have hnone : p.find? (fun f' => f'.id == ({ g with status := outcomeStatus ok f} : FileEntry).id) = none := by
        rw [List.find?_eq_none]
        intro f' hf'
        simp only
        rw [hg]
        intro hbeq
        exact hf (List.mem_map.mpr ⟨f', hf', by simpa using hbeq⟩)
      simp only [Function.comp, hupd, hnone]
      rw [List.find?_cons_of_pos _ (by simpa using hg.symm)]
    · have hupd : (if g.id = f.id then { g with status := outcomeStatus ok f } else g) = g := by
        rw [if_neg hg]
      simp only [Function.comp, hupd]
      rw [List.find?_cons_of_neg _ (by simpa using fun h => hg h.symm)]

lemma handleUploadAll_state (ok : Nat → Bool) (fs : List FileEntry)
    (hnd : (fs.map (fun f => f.id)).Nodup) :
    (handleUploadAll ok fs).1 = fs.map (expectedFinal ok) := by
  unfold handleUploadAll
  have hpend : ((fs.filter (fun f => f.status == UpStatus.pending)).map
      (fun f => f.id)).Nodup :=
    hnd.sublist ((List.filter_sublist fs).map (fun f => f.id))
  rw [fold_upload_state, fold_setStatus ok _ fs hpend]
  apply List.map_congr_left
  intro g hg
  by_cases hst : g.status = UpStatus.pending
  · have hmem : g ∈ fs.filter (fun f => f.status == UpStatus.pending) :=
      List.mem_filter.mpr ⟨hg, by simp [hst]⟩
    have hfind : (fs.filter (fun f => f.status == UpStatus.pending)).find?
        (fun f => f.id == g.id) = some g := by
      apply find?_unique _ _ g hmem (by simp)
      intro b hb hbeq
      have hbfs : b ∈ fs := List.mem_of_mem_filter hb
      exact nodup_ids_inj hnd b hbfs g hg (by simpa using hbeq)
    rw [hfind]
    unfold expectedFinal
    rw [if_pos hst]
  · have hfind : (fs.filter (fun f => f.status == UpStatus.pending)).find?
        (fun f => f.id == g.id) = none := by
      rw [List.find?_eq_none]
      intro b hb
      have hbfs : b ∈ fs := List.mem_of_mem_filter hb
      have hbp : b.status = UpStatus.pending := by
        have := List.of_mem_filter hb
        simpa using this
      intro hbeq
      have : b = g := nodup_ids_inj hnd b hbfs g hg (by simpa using hbeq)
      rw [this] at hbp
      exact hst hbp
    rw [hfind]
    unfold expectedFinal
    rw [if_neg hst]

/-! ## Helper lemmas used by several claims -/

lemma citeNums_render (citations : List Citation) (text : String) :
    citeNums (renderAnswerWithCitations citations text)
      = (markersOf text.data).map jsParseIntDigits :=
  citeNums_scanAux citations text.data.length [] text.data (le_refl _)

lemma resolved_of_mem_render {citations : List Citation} {text : String}
    {n : Nat} {r : Option Citation}
    (h : Segment.citeButton n r ∈ renderAnswerWithCitations citations text) :
    r = resolveCitation citations n :=
  resolved_of_mem_scanAux citations text.data.length [] text.data n r h

/-! ## Claims -/

/-- C1: for every generated answer string, the citation renderer
recognizes as citation markers exactly the substrings of the fixed
textual form `[n]` with `n` a decimal integer, and resolves the markers
left-to-right in order of their position in the text: the citation
buttons, in output order, carry exactly the numbers of the markers
enumerated by increasing position, and a marker sits at position `i`
precisely when the substring of form `[digits]` begins there. -/
theorem citation_marker_recognition (citations : List Citation) (text : String) :
    citeNums (renderAnswerWithCitations citations text)
      = (markersOf text.data).map jsParseIntDigits
    ∧ markersOf text.data
      = (List.range text.data.length).filterMap (markerAt text.data)
    ∧ (∀ i ds, markerAt text.data i = some ds ↔ hasMarkerAt text.data i ds) :=
  ⟨citeNums_render citations text, markersOf_eq_filterMap text.data,
    fun i ds => markerAt_iff_hasMarkerAt text.data i ds⟩

/-- C2: a marker `[n]` whose number matches no citation id is still
reported in the rendered output as a citation button, flagged unresolved
(`resolved = none`); it is never dropped, and the renderer is a total
function (it cannot crash). -/
theorem unresolved_marker_reported (citations : List Citation) (text : String)
    (i : Nat) (ds : List Char)
    (hm : markerAt text.data i = some ds)
    (hn : ∀ c ∈ citations, c.id ≠ jsParseIntDigits ds) :
    Segment.citeButton (jsParseIntDigits ds) none
      ∈ renderAnswerWithCitations citations text := by
  have hds : ds ∈ markersOf text.data := mem_markersOf_of_markerAt hm
  have hnum : jsParseIntDigits ds
      ∈ citeNums (renderAnswerWithCitations citations text) := by
    rw [citeNums_render]
    exact List.mem_map_of_mem _ hds
  obtain ⟨r, hr⟩ := exists_citeButton_of_mem_citeNums hnum
  have hres := resolved_of_mem_render hr
  have hnone : resolveCitation citations (jsParseIntDigits ds) = none := by
    unfold resolveCitation
    rw [List.find?_eq_none]
    intro c hc
    simp [hn c hc]
  rw [hres, hnone] at hr
  exact hr

theorem unresolved_marker_reported_witness :
    markerAt ("see [2]" : String).data 4 = some ['2']
    ∧ Segment.citeButton 2 none ∈ renderAnswerWithCitations [] "see [2]" :=
  ⟨by decide, unresolved_marker_reported [] "see [2]" 4 ['2'] (by decide) (by simp)⟩

/-- C3: every occurrence of the same marker `[n]` resolves to the same
Citation object (resolution is a function of the number alone), and the
sources list renders exactly one card per element of the `citations`
array — repeated markers add no duplicate source entry. -/
theorem repeated_marker_same_citation (citations : List Citation) (text : String)
    (n : Nat) (r r' : Option Citation)
    (h : Segment.citeButton n r ∈ renderAnswerWithCitations citations text)
    (h' : Segment.citeButton n r' ∈ renderAnswerWithCitations citations text) :
    r = r' ∧ (sourceCards citations).length = citations.length := by
  refine ⟨?_, length_sourceCards citations⟩
  rw [resolved_of_mem_render h, resolved_of_mem_render h']

theorem repeated_marker_same_citation_witness :
    some (⟨1, "text", "a.pdf", some 2, none, none, none⟩ : Citation)
        = some (⟨1, "text", "a.pdf", some 2, none, none, none⟩ : Citation)
    ∧ (sourceCards [⟨1, "text", "a.pdf", some 2, none, none, none⟩]).length
        = ([⟨1, "text", "a.pdf", some 2, none, none, none⟩] : List Citation).length :=
  repeated_marker_same_citation
    [⟨1, "text", "a.pdf", some 2, none, none, none⟩] "x [1] y [1]" 1
    (some ⟨1, "text", "a.pdf", some 2, none, none, none⟩)
    (some ⟨1, "text", "a.pdf", some 2, none, none, none⟩)
    (by decide) (by decide)

/-- C4 counterexample: concatenating the spans and button labels does not
always reproduce the answer string: for the answer `"[007]"` the single
citation button is labelled `[7]` (the marker's digits are re-rendered
through `parseInt`), so the concatenation is `"[7]"`. -/
theorem render_concat_not_original :
    String.mk (((renderAnswerWithCitations [] "[007]").map segmentChars).flatten)
      ≠ "[007]" := by decide

/-- C4 (amended): concatenating in order the plain-text spans and the
`[n]` button labels yields the original answer string provided every
marker's digit run is the canonical decimal numeral of its value (no
leading zeros); in general each marker's digits are replaced by the
canonical numeral of its parsed value. -/
theorem render_concat_canonical (citations : List Citation) (text : String)
    (h : ∀ ds ∈ markersOf text.data, (Nat.repr (jsParseIntDigits ds)).data = ds) :
    String.mk (((renderAnswerWithCitations citations text).map segmentChars).flatten)
      = text := by
  unfold renderAnswerWithCitations
  rw [flatten_scanAux citations text.data.length [] text.data h]
  rfl

theorem render_concat_canonical_witness :
    String.mk (((renderAnswerWithCitations [] "growth [1] and [23].").map
        segmentChars).flatten)
      = "growth [1] and [23]." :=
  render_concat_canonical [] "growth [1] and [23]." (by decide)

/-- C5: a citation is rendered (sources card and detail panel) from the
fields `id`, `type`, `source`, `page`, `start_time`, `end_time`, `url`
alone — two citations agreeing on those fields render identically, with
no further lookup — and each optional locator is shown only when
present. -/
theorem citation_rendered_from_fields (c c' : Citation)
    (hid : c.id = c'.id) (hty : c.type = c'.type) (hsrc : c.source = c'.source)
    (hpg : c.page = c'.page) (hst : c.start_time = c'.start_time)
    (het : c.end_time = c'.end_time) (hurl : c.url = c'.url) :
    citationCardView c = citationCardView c'
    ∧ citationPanelView c = citationPanelView c'
    ∧ ((citationCardView c).pageLine.isSome → c.page.isSome)
    ∧ ((citationCardView c).timeLine.isSome → c.start_time.isSome)
    ∧ ((citationPanelView c).pageDetail.isSome → c.page.isSome)
    ∧ ((citationPanelView c).timestampDetail.isSome → c.start_time.isSome)
    ∧ ((citationPanelView c).imagePreview.isSome → c.url.isSome) := by
  obtain ⟨id, ty, src, pg, st, et, url⟩ := c
  obtain ⟨id', ty', src', pg', st', et', url'⟩ := c'
  simp only at hid hty hsrc hpg hst het hurl
  subst hid hty hsrc hpg hst het hurl
  refine ⟨rfl, rfl, ?_, ?_, ?_, ?_, ?_⟩
  · cases pg <;> simp [citationCardView, jsTruthyNat]
  · cases st <;> simp [citationCardView]
  · cases pg <;> simp [citationPanelView, jsTruthyNat]
  · cases st <;> simp [citationPanelView]
  · cases url <;> simp [citationPanelView, jsTruthyStr]

/-- C6 counterexample: for a concrete submission (question `"hello"`, one
selected document, no advanced filters) the issued request's fields are
`question`, `top_k`, `include_modalities` — it carries no
`active_modalities` field, and the document-identifier filter does not
appear as a request field either (the whole `requestBody` is passed as
`queryRAG`'s `question` argument). -/
theorem query_request_fields_ce :
    objKeys (issuedRequest_v2 "hello" ["d1"] none)
      = ["question", "top_k", "include_modalities"]
    ∧ "active_modalities" ∉ objKeys (issuedRequest_v2 "hello" ["d1"] none)
    ∧ "document_ids" ∉ objKeys (issuedRequest_v2 "hello" ["d1"] none) :=
  ⟨rfl, by decide, by decide⟩

/-- C6 (amended): the query request carries the fields `question`,
`top_k`, and `include_modalities` (not `active_modalities`).  In the
search-interface variant that supports filters, the `requestBody` object
(containing the optional `document_ids` and `filters`) is passed as
`queryRAG`'s `question` argument, so it ends up nested inside the
`question` field rather than contributing top-level request fields.  The
results display consumes the response through the fields `answer`,
`citations`, and `context_used`. -/
theorem query_request_fields (q : String) (sd : List String)
    (af : Option JsonVal) (mt mi ma : Bool) (r : QueryResults)
    (hsd : sd ≠ []) :
    objKeys (issuedRequest_v2 q sd af)
      = ["question", "top_k", "include_modalities"]
    ∧ objField (issuedRequest_v2 q sd af) "question"
      = some (requestBody_v2 q sd af)
    ∧ "document_ids" ∈ objKeys (requestBody_v2 q sd af)
    ∧ objKeys (issuedRequest_v1 q mt mi ma)
      = ["question", "top_k", "include_modalities"]
    ∧ (resultsView r).answerSegments
      = renderAnswerWithCitations r.citations r.answer
    ∧ (resultsView r).sources = sourceCards r.citations
    ∧ (resultsView r).badges = contextBadges r.context_used := by
  refine ⟨rfl, rfl, ?_, rfl, rfl, rfl, rfl⟩
  have hne : sd.isEmpty = false := by simpa [List.isEmpty_iff] using hsd
  cases af <;> simp [requestBody_v2, objKeys, hne]

theorem query_request_fields_witness :
    objKeys (issuedRequest_v2 "hi" ["d1"] none)
      = ["question", "top_k", "include_modalities"]
    ∧ objField (issuedRequest_v2 "hi" ["d1"] none) "question"
      = some (requestBody_v2 "hi" ["d1"] none)
    ∧ "document_ids" ∈ objKeys (requestBody_v2 "hi" ["d1"] none)
    ∧ objKeys (issuedRequest_v1 "hi" true false true)
      = ["question", "top_k", "include_modalities"]
    ∧ (resultsView ⟨"a", [], ⟨0, 0, 0⟩⟩).answerSegments
      = renderAnswerWithCitations [] "a"
    ∧ (resultsView ⟨"a", [], ⟨0, 0, 0⟩⟩).sources = sourceCards []
    ∧ (resultsView ⟨"a", [], ⟨0, 0, 0⟩⟩).badges = contextBadges ⟨0, 0, 0⟩ :=
  query_request_fields "hi" ["d1"] none true false true ⟨"a", [], ⟨0, 0, 0⟩⟩
    (by decide)

/-- C7: in a batch upload over files with distinct ids, the final state is
the pointwise image of `expectedFinal` — each file's final status depends
only on its own type and its own request outcome, so one file's failure
neither blocks nor alters the others; every file that was pending ends
`completed` or `error` (with `error` exactly when its type is unsupported
or its own request failed), shown by a visible badge, and non-pending
files are untouched. -/
theorem batch_upload_isolated (ok : Nat → Bool) (fs : List FileEntry)
    (hnd : (fs.map (fun f => f.id)).Nodup) :
    (handleUploadAll ok fs).1 = fs.map (expectedFinal ok)
    ∧ (∀ f ∈ fs, f.status = UpStatus.pending →
        ((expectedFinal ok f).status = UpStatus.completed
          ∨ (expectedFinal ok f).status = UpStatus.error)
        ∧ (fileIndicator (expectedFinal ok f).status = FileIndicator.doneBadge
            ∨ fileIndicator (expectedFinal ok f).status = FileIndicator.errorBadge)
        ∧ ((expectedFinal ok f).status = UpStatus.error
            ↔ (uploadEndpointFor f.ftype = none ∨ ok f.id = false)))
    ∧ (∀ f ∈ fs, f.status ≠ UpStatus.pending → expectedFinal ok f = f) := by
  refine ⟨handleUploadAll_state ok fs hnd, ?_, ?_⟩
  · intro f _ hpend
    unfold expectedFinal outcomeStatus
    rw [if_pos hpend]
    cases hep : uploadEndpointFor f.ftype with
    | some ep => by_cases hok : ok f.id <;> simp [hok, fileIndicator]
    | none => simp [fileIndicator]
  · intro f _ hnp
    unfold expectedFinal
    rw [if_neg hnp]

theorem batch_upload_isolated_witness :
    (handleUploadAll (fun i => decide (i = 1))
        [⟨1, "a.pdf", "document", UpStatus.pending⟩,
         ⟨2, "b.png", "image", UpStatus.pending⟩,
         ⟨3, "c.xyz", "unknown", UpStatus.pending⟩]).1
      = [⟨1, "a.pdf", "document", UpStatus.completed⟩,
         ⟨2, "b.png", "image", UpStatus.error⟩,
         ⟨3, "c.xyz", "unknown", UpStatus.error⟩] := by
  rw [(batch_upload_isolated (fun i => decide (i = 1))
    [⟨1, "a.pdf", "document", UpStatus.pending⟩,
     ⟨2, "b.png", "image", UpStatus.pending⟩,
     ⟨3, "c.xyz", "unknown", UpStatus.pending⟩] (by decide)).1]
  decide

/-- C8: a file whose extension belongs to none of the supported document,
image, or audio extension sets gets type `unknown`, and `uploadFile`
throws the unsupported-file-type error before issuing any request to any
endpoint; the file ends in status `error`. -/
theorem unsupported_type_rejected (ok : Nat → Bool) (fs : List FileEntry)
    (f : FileEntry)
    (hty : f.ftype = getFileType f.name)
    (hdoc : ¬(splitPopLower f.name = "pdf" ∨ splitPopLower f.name = "docx"
        ∨ splitPopLower f.name = "doc"))
    (himg : ¬(splitPopLower f.name = "png" ∨ splitPopLower f.name = "jpg"
        ∨ splitPopLower f.name = "jpeg" ∨ splitPopLower f.name = "gif"
        ∨ splitPopLower f.name = "bmp"))
    (haud : ¬(splitPopLower f.name = "mp3" ∨ splitPopLower f.name = "wav"
        ∨ splitPopLower f.name = "m4a" ∨ splitPopLower f.name = "flac"
        ∨ splitPopLower f.name = "ogg")) :
    (uploadFile ok fs f).2.1 = []
    ∧ (uploadFile ok fs f).2.2 = some UploadErr.unsupportedFileType
    ∧ (uploadFile ok fs f).1 = setStatus fs f.id UpStatus.error := by
  have hunk : f.ftype = "unknown" := by
    rw [hty]
    unfold getFileType
    simp only [hdoc, himg, haud, if_false]
  have hep : uploadEndpointFor f.ftype = none := by
    rw [hunk]
    rfl
  unfold uploadFile
  rw [hep]
  exact ⟨rfl, rfl, setStatus_setStatus fs f.id UpStatus.uploading UpStatus.error⟩

theorem unsupported_type_rejected_witness :
    (uploadFile (fun _ => true) [⟨7, "notes.xyz", "unknown", UpStatus.pending⟩]
        ⟨7, "notes.xyz", "unknown", UpStatus.pending⟩).2.1 = []
    ∧ (uploadFile (fun _ => true) [⟨7, "notes.xyz", "unknown", UpStatus.pending⟩]
        ⟨7, "notes.xyz", "unknown", UpStatus.pending⟩).2.2
      = some UploadErr.unsupportedFileType
    ∧ (uploadFile (fun _ => true) [⟨7, "notes.xyz", "unknown", UpStatus.pending⟩]
        ⟨7, "notes.xyz", "unknown", UpStatus.pending⟩).1
      = setStatus [⟨7, "notes.xyz", "unknown", UpStatus.pending⟩] 7 UpStatus.error :=
  unsupported_type_rejected (fun _ => true)
    [⟨7, "notes.xyz", "unknown", UpStatus.pending⟩]
    ⟨7, "notes.xyz", "unknown", UpStatus.pending⟩
    (by decide) (by decide) (by decide) (by decide)

/-- C9: the four processing statuses `pending|processing|completed|failed`
(consumed through their numeric encoding) each map to a badge, the four
badges are pairwise distinct, and every status value outside the four
renders no badge. -/
theorem processing_status_badges :
    (∀ s : ProcessingStatus, (getStatusBadge (statusCode s)).isSome = true)
    ∧ (∀ s s' : ProcessingStatus,
        getStatusBadge (statusCode s) = getStatusBadge (statusCode s') → s = s')
    ∧ (∀ n : Int, (∀ s : ProcessingStatus, n ≠ statusCode s) →
        getStatusBadge n = none) := by
  refine ⟨?_, ?_, ?_⟩
  · intro s
    cases s <;> decide
  · intro s s' h
    cases s <;> cases s' <;>
      first
        | rfl
        | exact absurd h (by decide)
  intro n h
  have h0 : n ≠ 0 := h ProcessingStatus.pending
  have h1 : n ≠ 1 := h ProcessingStatus.processing
  have h2 : n ≠ 2 := h ProcessingStatus.completed
  have h3 : n ≠ 3 := h ProcessingStatus.failed
  simp [getStatusBadge, h0, h1, h2, h3]

theorem processing_status_badges_witness : getStatusBadge 7 = none :=
  processing_status_badges.2.2 7 (by intro s; cases s <;> decide)

/-- C10: submitting the search form with a query that is empty or
whitespace-only issues no request and leaves the displayed results
unchanged, in both `SearchInterface` variants. -/
theorem blank_query_no_request (query : String) (mt mi ma : Bool)
    (sd : List String) (af : Option JsonVal) (net : JsonVal → Option JsonVal)
    (results : Option JsonVal)
    (h : ∀ c ∈ query.data, isJsWhitespace c = true) :
    handleSubmit_v1 query mt mi ma net results = ([], results)
    ∧ handleSubmit_v2 query sd af net results = ([], results) := by
  have h1 : query.data.dropWhile isJsWhitespace = [] :=
    List.dropWhile_eq_nil_iff.mpr h
  have htrim : (jsTrim query).isEmpty = true := by
    unfold jsTrim
    rw [h1]
    rfl
  unfold handleSubmit_v1 handleSubmit_v2
  simp [htrim]

theorem blank_query_no_request_witness :
    handleSubmit_v1 "  " true true true (fun _ => none) none = ([], none)
    ∧ handleSubmit_v2 "  " [] none (fun _ => none) none = ([], none) :=
  blank_query_no_request "  " true true true [] none (fun _ => none) none
    (by decide)

theorem citation_rendered_from_fields_witness :
    citationCardView ⟨3, "audio", "talk.mp3", none, some 5, some 9, none⟩
        = citationCardView ⟨3, "audio", "talk.mp3", none, some 5, some 9, none⟩
    ∧ citationPanelView ⟨3, "audio", "talk.mp3", none, some 5, some 9, none⟩
        = citationPanelView ⟨3, "audio", "talk.mp3", none, some 5, some 9, none⟩
    ∧ ((citationCardView ⟨3, "audio", "talk.mp3", none, some 5, some 9, none⟩).pageLine.isSome
        → (none : Option Nat).isSome)
    ∧ ((citationCardView ⟨3, "audio", "talk.mp3", none, some 5, some 9, none⟩).timeLine.isSome
        → (some (5 : Int)).isSome)
    ∧ ((citationPanelView ⟨3, "audio", "talk.mp3", none, some 5, some 9, none⟩).pageDetail.isSome
        → (none : Option Nat).isSome)
    ∧ ((citationPanelView ⟨3, "audio", "talk.mp3", none, some 5, some 9, none⟩).timestampDetail.isSome
        → (some (5 : Int)).isSome)
    ∧ ((citationPanelView ⟨3, "audio", "talk.mp3", none, some 5, some 9, none⟩).imagePreview.isSome
        → (none : Option String).isSome) :=
  citation_rendered_from_fields
    ⟨3, "audio", "talk.mp3", none, some 5, some 9, none⟩
    ⟨3, "audio", "talk.mp3", none, some 5, some 9, none⟩
    rfl rfl rfl rfl rfl rfl rfl

end RAG
